import Mathlib

/-!
Verification of the time-watcher horizon-polling and change-detection engine
(`src/apps/time-watcher/main.ts`) against its specification.

The TypeScript source is shallowly embedded: pure helpers become Lean
functions, the polling loop becomes a fuel-indexed recursion, the external
fetch becomes an explicit `Except`-valued oracle, and the dump sink becomes
an explicit write-result parameter.
-/

namespace TimeWatcher

/-- A normalized slot identifier, as built in `queryAllDates`
(`{ time: minutesToTime(s.timeOffsetMinutes), hash: s.slotHash }`). -/
structure Slot where
  time : String
  hash : String
deriving DecidableEq, Repr

/-- Per-date availability snapshot (interface `DateSnapshot` in the source).
`slotCount` is a stored field, set to `slots.length` at construction. -/
structure DateSnapshot where
  date : String
  daysOut : Nat
  slotCount : Nat
  slots : List Slot
deriving DecidableEq, Repr

/-- Well-formedness established by the snapshot constructor in
`queryAllDates`: the stored `slotCount` is the length of `slots`. -/
def DateSnapshot.wf (s : DateSnapshot) : Prop := s.slotCount = s.slots.length

/-- `String(n).padStart(2, "0")` applied to a decimal-rendered `Nat`. -/
def pad2 (n : Nat) : String :=
  let s := toString n
  if s.length < 2 then "0" ++ s else s

/-- `minutesToTime` from the source: `HH:MM` from minutes since midnight. -/
def minutesToTime (mins : Nat) : String :=
  pad2 (mins / 60) ++ ":" ++ pad2 (mins % 60)

/-- One raw slot record of the availability payload (interface
`AvailableSlot`): only the fields the engine reads are modelled. -/
structure RawSlot where
  isAvailable : Bool
  timeOffsetMinutes : Nat
  slotHash : String
  typename : String
deriving DecidableEq, Repr

/-- One day of the raw response; `slots` is optional, mirroring
`day.slots ?? []`. -/
structure RawDay where
  slots : Option (List RawSlot)
deriving DecidableEq, Repr

/-- The decoded response body; `availabilityDays` is optional, mirroring
`responseBody.data?.availability?.[0]?.availabilityDays ?? []`. -/
structure RawResponse where
  availabilityDays : Option (List RawDay)
deriving DecidableEq, Repr

/-- Slot extraction loop of `queryDateAvailability`: keep the slots that are
available and of `__typename === "AvailableSlot"`, in response order. -/
def extractAvailable (resp : RawResponse) : List RawSlot :=
  ((resp.availabilityDays.getD []).map
    (fun day => (day.slots.getD []).filter
      (fun s => s.isAvailable && s.typename == "AvailableSlot"))).flatten

/-- Snapshot construction in `queryAllDates` (the `snapshots.push({...})`). -/
def mkSnapshot (date : String) (daysOut : Nat) (slots : List RawSlot) : DateSnapshot :=
  { date := date
    daysOut := daysOut
    slotCount := slots.length
    slots := slots.map (fun s => ⟨minutesToTime s.timeOffsetMinutes, s.slotHash⟩) }

/-- The `date-release` event object emitted by the release branch of
`runPollingLoop`. -/
structure ReleaseEvent where
  ts : String
  date : String
  daysOut : Nat
  slotCount : Nat
  slots : List String
deriving DecidableEq, Repr

/-- Outcome of the per-date comparison in `runPollingLoop`, one constructor
per branch of the `if`/`else if` chain. -/
inductive Classification where
  | baseline (snap : DateSnapshot)
  | newDate (snap : DateSnapshot)
  | release (event : ReleaseEvent)
  | delta (added removed : List String)
  | unchanged
deriving DecidableEq, Repr

/-- `added` list of the delta branch: times of the new snapshot whose time is
not in the previous snapshot's time set. -/
def deltaAdded (prev snap : DateSnapshot) : List String :=
  let prevTimes := prev.slots.map Slot.time
  (snap.slots.filter (fun s => !(prevTimes.contains s.time))).map Slot.time

/-- `removed` list of the delta branch: times of the previous snapshot whose
time is not in the new snapshot's time set. -/
def deltaRemoved (prev snap : DateSnapshot) : List String :=
  let currTimes := snap.slots.map Slot.time
  (prev.slots.filter (fun s => !(currTimes.contains s.time))).map Slot.time

/-- The per-date comparison of `runPollingLoop` (lines 501–555): baseline on
the first poll, new-date when no previous snapshot exists, release on a
0 → N transition, delta on a count change, silence otherwise. -/
def classifyDate (firstPoll : Bool) (prev : Option DateSnapshot)
    (snap : DateSnapshot) (ts : String) : Classification :=
  if firstPoll then .baseline snap
  else
    match prev with
    | none => .newDate snap
    | some p =>
      if p.slotCount = 0 ∧ 0 < snap.slotCount then
        .release ⟨ts, snap.date, snap.daysOut, snap.slotCount, snap.slots.map Slot.time⟩
      else if snap.slotCount ≠ p.slotCount then
        .delta (deltaAdded p snap) (deltaRemoved p snap)
      else .unchanged

/-- Lexicographic comparison of character lists by code unit, the order JS
`<`-style string comparison and default `sort()` use. -/
def charListLe : List Char → List Char → Bool
  | [], _ => true
  | _ :: _, [] => false
  | a :: as, b :: bs =>
    if a.toNat < b.toNat then true
    else if b.toNat < a.toNat then false
    else charListLe as bs

/-- Code-unit order on strings (the comparator semantics of JS `sort()` and
`localeCompare` on the ASCII date/hash/time strings involved). -/
def strLe (a b : String) : Prop := charListLe a.data b.data = true

instance (a b : String) : Decidable (strLe a b) := by
  unfold strLe; infer_instance

/-- Stable sort by the default JS string comparison, modelling
`array.sort()` on strings (code-unit order). -/
def sortStrings (l : List String) : List String :=
  l.insertionSort strLe

/-- The stable sort `snapshots.sort((a, b) => a.date.localeCompare(b.date))`
at the head of `buildMultiDateFingerprint`. -/
def sortByDate (l : List DateSnapshot) : List DateSnapshot :=
  l.insertionSort (fun a b => strLe a.date b.date)

/-- One snapshot's fragment of the fingerprint: `"date:0"` for empty dates,
`"date:count:hash1,hash2,..."` (hashes sorted) otherwise. -/
def renderSnapshot (s : DateSnapshot) : String :=
  if s.slotCount = 0 then s.date ++ ":0"
  else s.date ++ ":" ++ toString s.slotCount ++ ":"
    ++ String.intercalate "," (sortStrings (s.slots.map Slot.hash))

/-- `buildMultiDateFingerprint` from the source: sort snapshots by date,
render each, join with `"|"`. -/
def buildMultiDateFingerprint (snapshots : List DateSnapshot) : String :=
  String.intercalate "|" ((sortByDate snapshots).map renderSnapshot)

/-- Two snapshots that agree on every field except that the `slots` array
has been permuted. -/
def SnapPerm (a b : DateSnapshot) : Prop :=
  a.date = b.date ∧ a.daysOut = b.daysOut ∧ a.slotCount = b.slotCount ∧
    a.slots.Perm b.slots

/-- A calendar date as the JS `Date` accessors expose it after
`setHours(0,0,0,0)`: year, month (1–12 after the `+1` shift), day of month. -/
structure Civil where
  year : Nat
  month : Nat
  day : Nat
deriving DecidableEq, Repr

/-- Gregorian leap-year rule, as implemented by JS `Date` month rollover. -/
def isLeap (y : Nat) : Bool := (y % 4 == 0 && y % 100 != 0) || (y % 400 == 0)

/-- Days in a month of a given year under the Gregorian calendar. -/
def daysInMonth (y m : Nat) : Nat :=
  if m = 2 then (if isLeap y then 29 else 28)
  else if m = 4 ∨ m = 6 ∨ m = 9 ∨ m = 11 then 30
  else 31

/-- A structurally valid calendar date. -/
def Civil.valid (c : Civil) : Prop :=
  1 ≤ c.month ∧ c.month ≤ 12 ∧ 1 ≤ c.day ∧ c.day ≤ daysInMonth c.year c.month

instance (c : Civil) : Decidable c.valid := by
  unfold Civil.valid; infer_instance

/-- Advance a calendar date by one day, with month and year rollover — the
day-granularity semantics of JS `d.setDate(d.getDate() + 1)`. -/
def nextDay (c : Civil) : Civil :=
  if c.day < daysInMonth c.year c.month then ⟨c.year, c.month, c.day + 1⟩
  else if c.month < 12 then ⟨c.year, c.month + 1, 1⟩
  else ⟨c.year + 1, 1, 1⟩

/-- `d.setDate(d.getDate() + n)` at day granularity: advance `n` days. -/
def addDays (c : Civil) : Nat → Civil
  | 0 => c
  | n + 1 => nextDay (addDays c n)

/-- Chronological (lexicographic year/month/day) order on calendar dates. -/
def Civil.lt (a b : Civil) : Prop :=
  a.year < b.year ∨ (a.year = b.year ∧
    (a.month < b.month ∨ (a.month = b.month ∧ a.day < b.day)))

instance (a b : Civil) : Decidable (Civil.lt a b) := by
  unfold Civil.lt; infer_instance

/-- `futureDateStr` from the source: format today+n as `YYYY-MM-DD`
(month and day zero-padded to two digits). -/
def futureDateStr (today : Civil) (daysFromNow : Nat) : String :=
  let d := addDays today daysFromNow
  toString d.year ++ "-" ++ pad2 d.month ++ "-" ++ pad2 d.day

/-- The loop counter values `LOOKAHEAD_START .. LOOKAHEAD_END` of the
per-date loops (`for (let d = LOOKAHEAD_START; d <= LOOKAHEAD_END; d++)`). -/
def horizonWindow (lookaheadStart lookaheadEnd : Nat) : List Nat :=
  List.range' lookaheadStart (lookaheadEnd + 1 - lookaheadStart)

/-- The dates the Horizon Scheduler queries in one cycle, paired with their
`daysOut` values. -/
def scheduledDates (today : Civil) (lookaheadStart lookaheadEnd : Nat) :
    List (Civil × Nat) :=
  (horizonWindow lookaheadStart lookaheadEnd).map (fun d => (addDays today d, d))

/-- `jitteredDelay` from the source, parametric in the configured interval
and jitter and in the value `r` drawn by `Math.random()`:
`Math.max(10000, POLL_INTERVAL_MS + (r * 2 - 1) * POLL_JITTER_MS)`.
Real arithmetic is modelled over `ℚ`. -/
def jitteredDelayWith (intervalMs jitterMs r : ℚ) : ℚ :=
  max 10000 (intervalMs + (r * 2 - 1) * jitterMs)

/-- `jitteredDelay` at the default configuration
(`POLL_INTERVAL_MS = 60000`, `POLL_JITTER_MS = 20000`). -/
def jitteredDelay (r : ℚ) : ℚ := jitteredDelayWith 60000 20000 r

/-- Result of one `appendDump` call. -/
inductive DumpOutcome where
  | skipped
  | written
  | warned (msg : String)
deriving DecidableEq, Repr

/-- `appendDump` from the source: no-op when `DUMP_FILE` is unset; otherwise
attempt the write, and on failure catch the error and log a warning. The
sink's behaviour is passed in as the outcome of `appendFileSync`. -/
def appendDump (dumpFile : Option String) (write : Except String Unit) : DumpOutcome :=
  match dumpFile with
  | none => .skipped
  | some _ =>
    match write with
    | .ok _ => .written
    | .error e => .warned e

/-- The `previousByDate` map: calendar date string → most recent snapshot. -/
abbrev Store : Type := List (String × DateSnapshot)

/-- `previousByDate.get(date)`. -/
def storeGet (m : Store) (date : String) : Option DateSnapshot :=
  (List.find? (fun p => p.1 == date) m).map Prod.snd

/-- `map.set(key, value)`: overwrite an existing binding, else append. -/
def storeSet (m : Store) (date : String) (s : DateSnapshot) : Store :=
  if List.any m (fun p => p.1 == date) then
    List.map (fun p => if p.1 == date then (date, s) else p) m
  else m ++ [(date, s)]

/-- The fresh `newMap` built from a cycle's snapshots at the end of
`runPollingLoop`'s body. -/
def buildStore (snaps : List DateSnapshot) : Store :=
  snaps.foldl (fun m s => storeSet m s.date s) ([] : List (String × DateSnapshot))

/-- `queryAllDates` from the source: walk the lookahead window in order,
fetch each date from the external data source (an `Except`-valued oracle
indexed by `daysOut`, modelling that `fetchGql`/`res.json()` may throw),
and build one snapshot per date. A thrown error propagates immediately,
abandoning the remaining dates of the cycle. -/
def queryAllDates (today : Civil) (lookaheadStart lookaheadEnd : Nat)
    (fetch : Nat → Except String RawResponse) :
    Except String (List DateSnapshot) :=
  (horizonWindow lookaheadStart lookaheadEnd).mapM (fun d => do
    let resp ← fetch d
    pure (mkSnapshot (futureDateStr today d) d (extractAvailable resp)))

/-- Observable result of one iteration of `runPollingLoop`'s body. -/
structure CycleResult where
  classifications : List Classification
  dumpOutcomes : List DumpOutcome
  newStore : Store
  cycleError : Option String
  firstPollAfter : Bool
deriving DecidableEq, Repr

/-- One poll cycle (the `try`-block of `runPollingLoop`): fetch all dates;
on success dump every observation, classify every snapshot against the
store, and replace the store; a thrown fetch error is caught at cycle
level, leaving the store and the `firstPoll` flag untouched. `sinkWrite`
gives the dump sink's response to the i-th append of the cycle. -/
def runCycle (firstPoll : Bool) (store : Store) (ts : String) (today : Civil)
    (lookaheadStart lookaheadEnd : Nat)
    (fetch : Nat → Except String RawResponse)
    (dumpFile : Option String) (sinkWrite : Nat → Except String Unit) :
    CycleResult :=
  match queryAllDates today lookaheadStart lookaheadEnd fetch with
  | .error e =>
    { classifications := []
      dumpOutcomes := []
      newStore := store
      cycleError := some e
      firstPollAfter := firstPoll }
  | .ok snaps =>
    { classifications :=
        snaps.map (fun s => classifyDate firstPoll (storeGet store s.date) s ts)
      dumpOutcomes :=
        (List.range snaps.length).map (fun i => appendDump dumpFile (sinkWrite i))
      newStore := buildStore snaps
      cycleError := none
      firstPollAfter := false }

/-- The truthiness test `MAX_POLLS && pollCount > MAX_POLLS` guarding the
poll budget: `MAX_POLLS` is `null` when the env var is unset, and the
number `0` is falsy exactly like `null`. -/
def budgetExceeded (maxPolls : Option Nat) (pollCount : Nat) : Bool :=
  match maxPolls with
  | none => false
  | some m => (m != 0) && (decide (pollCount > m))

/-- Number of poll cycles the `while` loop of `runPollingLoop` executes,
with no stop signal, within `fuel` loop iterations: each iteration first
increments `pollCount`, then breaks if the budget is exceeded, else runs
one cycle. -/
def cyclesRun (maxPolls : Option Nat) : Nat → Nat → Nat
  | 0, _ => 0
  | fuel + 1, pollCount =>
    if budgetExceeded maxPolls (pollCount + 1) then 0
    else 1 + cyclesRun maxPolls fuel (pollCount + 1)

/-- Cycles executed by a whole run (the loop starts at `pollCount = 0`). -/
def runLoopCycles (maxPolls : Option Nat) (fuel : Nat) : Nat :=
  cyclesRun maxPolls fuel 0

/- ───────────────────────── Theorems ───────────────────────── -/

theorem mkSnapshot_wf (date : String) (daysOut : Nat) (slots : List RawSlot) :
    (mkSnapshot date daysOut slots).wf := by
  simp [mkSnapshot, DateSnapshot.wf]

theorem charListLe_total : ∀ as bs, charListLe as bs = true ∨ charListLe bs as = true
  | [], _ => by left; rfl
  | _ :: _, [] => by right; rfl
  | a :: as, b :: bs => by
    simp only [charListLe]
    rcases Nat.lt_trichotomy a.toNat b.toNat with h | h | h
    · left; simp [h]
    · have h1 : ¬ a.toNat < b.toNat := by omega
      have h2 : ¬ b.toNat < a.toNat := by omega
      simpa [h1, h2] using charListLe_total as bs
    · right; simp [h]

theorem charListLe_trans : ∀ as bs cs, charListLe as bs = true →
    charListLe bs cs = true → charListLe as cs = true
  | [], _, _, _, _ => rfl
  | _ :: _, [], _, h1, _ => by simp [charListLe] at h1
  | _ :: _, _ :: _, [], _, h2 => by simp [charListLe] at h2
  | a :: as, b :: bs, c :: cs, h1, h2 => by
    simp only [charListLe] at h1 h2 ⊢
    rcases Nat.lt_trichotomy a.toNat b.toNat with hab | hab | hab
    · rcases Nat.lt_trichotomy b.toNat c.toNat with hbc | hbc | hbc
      · rw [if_pos (by omega)]
      · rw [if_pos (by omega)]
      · rw [if_neg (by omega), if_pos hbc] at h2
        exact absurd h2 (by simp)
    · rw [if_neg (by omega), if_neg (by omega)] at h1
      rcases Nat.lt_trichotomy b.toNat c.toNat with hbc | hbc | hbc
      · rw [if_pos (by omega)]
      · rw [if_neg (by omega), if_neg (by omega)] at h2
        rw [if_neg (by omega), if_neg (by omega)]
        exact charListLe_trans as bs cs h1 h2
      · rw [if_neg (by omega), if_pos hbc] at h2
        exact absurd h2 (by simp)
    · rw [if_neg (by omega), if_pos hab] at h1
      exact absurd h1 (by simp)

theorem charListLe_antisymm : ∀ as bs, charListLe as bs = true →
    charListLe bs as = true → as = bs
  | [], [], _, _ => rfl
  | [], _ :: _, _, h2 => by simp [charListLe] at h2
  | _ :: _, [], h1, _ => by simp [charListLe] at h1
  | a :: as, b :: bs, h1, h2 => by
    simp only [charListLe] at h1 h2
    rcases Nat.lt_trichotomy a.toNat b.toNat with hab | hab | hab
    · rw [if_neg (by omega), if_pos hab] at h2
      exact absurd h2 (by simp)
    · rw [if_neg (by omega), if_neg (by omega)] at h1
      rw [if_neg (by omega), if_neg (by omega)] at h2
      have hc : a = b := Char.ext_iff.mpr (UInt32.ext hab)
      rw [hc, charListLe_antisymm as bs h1 h2]
    · rw [if_neg (by omega), if_pos hab] at h1
      exact absurd h1 (by simp)

instance : IsTotal String strLe :=
  ⟨fun a b => charListLe_total a.data b.data⟩

instance : IsTrans String strLe :=
  ⟨fun a b c => charListLe_trans a.data b.data c.data⟩

instance : IsAntisymm String strLe :=
  ⟨fun a b h1 h2 => by
    cases a; cases b
    exact congrArg String.mk (charListLe_antisymm _ _ h1 h2)⟩

example : sortStrings ["19:00", "18:00"] = ["18:00", "19:00"] := by decide

example : classifyDate false (some ⟨"2026-10-23", 11, 0, []⟩)
    ⟨"2026-10-23", 11, 2, [⟨"19:00", "h2"⟩, ⟨"18:00", "h1"⟩]⟩ "t"
    = .release ⟨"t", "2026-10-23", 11, 2, ["19:00", "18:00"]⟩ := by decide

example : buildMultiDateFingerprint
    [⟨"2026-10-24", 12, 0, []⟩, ⟨"2026-10-23", 11, 2, [⟨"19:00", "h2"⟩, ⟨"18:00", "h1"⟩]⟩]
    = "2026-10-23:2:h1,h2|2026-10-24:0" := by decide

theorem daysInMonth_pos (y m : Nat) : 0 < daysInMonth y m := by
  unfold daysInMonth
  split
  · split <;> norm_num
  · split <;> norm_num

theorem nextDay_valid {c : Civil} (h : c.valid) : (nextDay c).valid := by
  obtain ⟨h1, h2, h3, h4⟩ := h
  have hp2 : 0 < daysInMonth c.year (c.month + 1) := daysInMonth_pos _ _
  have hp3 : 0 < daysInMonth (c.year + 1) 1 := daysInMonth_pos _ _
  unfold nextDay
  split_ifs with ha hb <;> unfold Civil.valid <;> dsimp only <;> omega

theorem lt_nextDay (c : Civil) : Civil.lt c (nextDay c) := by
  unfold nextDay
  split_ifs with ha hb <;> unfold Civil.lt <;> dsimp only <;> omega

theorem Civil.lt_trans {a b c : Civil} (h1 : Civil.lt a b) (h2 : Civil.lt b c) :
    Civil.lt a c := by
  unfold Civil.lt at *
  omega

theorem addDays_valid {c : Civil} (h : c.valid) : ∀ n, (addDays c n).valid
  | 0 => h
  | n + 1 => nextDay_valid (addDays_valid h n)

theorem classifyDate_first (prev : Option DateSnapshot) (snap : DateSnapshot)
    (ts : String) : classifyDate true prev snap ts = .baseline snap := rfl

theorem classifyDate_none (snap : DateSnapshot) (ts : String) :
    classifyDate false none snap ts = .newDate snap := rfl

theorem classifyDate_some (p snap : DateSnapshot) (ts : String) :
    classifyDate false (some p) snap ts =
      if p.slotCount = 0 ∧ 0 < snap.slotCount then
        .release ⟨ts, snap.date, snap.daysOut, snap.slotCount, snap.slots.map Slot.time⟩
      else if snap.slotCount ≠ p.slotCount then
        .delta (deltaAdded p snap) (deltaRemoved p snap)
      else .unchanged := rfl

/-- C1 (counterexample): when the new snapshot's slots are not listed in
time order, the emitted release event carries the times in snapshot order,
not sorted — refuting the claim that `slotTimes` equals the sorted list. -/
theorem c1_release_times_unsorted_cx :
    classifyDate false (some ⟨"2026-10-23", 11, 0, []⟩)
      ⟨"2026-10-23", 11, 2, [⟨"19:00", "h2"⟩, ⟨"18:00", "h1"⟩]⟩ "t"
      = .release ⟨"t", "2026-10-23", 11, 2, ["19:00", "18:00"]⟩ ∧
    ["19:00", "18:00"] ≠ sortStrings
      ((⟨"2026-10-23", 11, 2, [⟨"19:00", "h2"⟩, ⟨"18:00", "h1"⟩]⟩ :
        DateSnapshot).slots.map Slot.time) := by
  exact ⟨by decide, by decide⟩

/-- C1 (amended): a 0 → N transition on a date with an observed predecessor
is classified Release, and the one emitted event's `slotCount` equals
`new.slots.length` while its slot-time list is the times of `new.slots` in
snapshot order (sorted only when the snapshot itself is time-ordered). -/
theorem c1_release_event_shape (prev snap : DateSnapshot) (ts : String)
    (hwf : snap.wf) (h0 : prev.slotCount = 0) (h1 : 0 < snap.slotCount) :
    classifyDate false (some prev) snap ts =
      .release ⟨ts, snap.date, snap.daysOut, snap.slots.length,
        snap.slots.map Slot.time⟩ := by
  have hwfe : snap.slotCount = snap.slots.length := hwf
  rw [classifyDate_some, if_pos ⟨h0, h1⟩, hwfe]

theorem c1_release_event_shape_witness :
    (⟨"2026-10-23", 11, 2, [⟨"18:00", "h1"⟩, ⟨"18:30", "h2"⟩]⟩ : DateSnapshot).wf ∧
    (⟨"2026-10-23", 11, 0, []⟩ : DateSnapshot).slotCount = 0 ∧
    classifyDate false (some ⟨"2026-10-23", 11, 0, []⟩)
      ⟨"2026-10-23", 11, 2, [⟨"18:00", "h1"⟩, ⟨"18:30", "h2"⟩]⟩ "t"
      = .release ⟨"t", "2026-10-23", 11, 2, ["18:00", "18:30"]⟩ :=
  ⟨rfl, rfl, by
    rw [c1_release_event_shape ⟨"2026-10-23", 11, 0, []⟩
      ⟨"2026-10-23", 11, 2, [⟨"18:00", "h1"⟩, ⟨"18:30", "h2"⟩]⟩ "t"
      (by exact rfl) rfl (by decide)]
    decide⟩

/-- C3: a date with no prior snapshot in the store, seen on a non-first
cycle, is classified New-date-entered regardless of its slot count, and is
never classified Release. -/
theorem c3_new_date_never_release (store : Store) (snap : DateSnapshot)
    (ts : String) (h : storeGet store snap.date = none) :
    classifyDate false (storeGet store snap.date) snap ts = .newDate snap ∧
    ∀ ev : ReleaseEvent,
      classifyDate false (storeGet store snap.date) snap ts ≠ .release ev := by
  rw [h]
  exact ⟨rfl, fun ev hcon => by simp [classifyDate] at hcon⟩

theorem c3_new_date_never_release_witness :
    storeGet [] "2026-10-23" = none ∧
    classifyDate false (storeGet [] "2026-10-23")
      ⟨"2026-10-23", 11, 2, [⟨"18:00", "h1"⟩, ⟨"18:30", "h2"⟩]⟩ "t"
      = .newDate ⟨"2026-10-23", 11, 2, [⟨"18:00", "h1"⟩, ⟨"18:30", "h2"⟩]⟩ :=
  ⟨rfl, (c3_new_date_never_release []
    ⟨"2026-10-23", 11, 2, [⟨"18:00", "h1"⟩, ⟨"18:30", "h2"⟩]⟩ "t" rfl).1⟩

/-- C4 (counterexample): two snapshots with equal `slotCount` but different
slot hash sets are classified Unchanged (silently), refuting the claim that
the detector surfaces such a change as a Delta-worthy event. -/
theorem c4_hash_change_silent_cx :
    classifyDate false (some ⟨"2026-10-23", 11, 1, [⟨"18:00", "h1"⟩]⟩)
      ⟨"2026-10-23", 11, 1, [⟨"18:00", "h2"⟩]⟩ "t" = .unchanged ∧
    sortStrings ((⟨"2026-10-23", 11, 1, [⟨"18:00", "h1"⟩]⟩ :
        DateSnapshot).slots.map Slot.hash) ≠
      sortStrings ((⟨"2026-10-23", 11, 1, [⟨"18:00", "h2"⟩]⟩ :
        DateSnapshot).slots.map Slot.hash) := by
  exact ⟨by decide, by decide⟩

/-- C4 (amended): the per-date detector keys only on `slotCount`: whenever
the counts are equal it classifies Unchanged and stays silent, even when
the underlying hash sets differ. -/
theorem c4_equal_count_unchanged (prev snap : DateSnapshot) (ts : String)
    (h : snap.slotCount = prev.slotCount) :
    classifyDate false (some prev) snap ts = .unchanged := by
  rw [classifyDate_some, if_neg (by omega), if_neg (by omega)]

theorem c4_equal_count_unchanged_witness :
    (⟨"2026-10-23", 11, 1, [⟨"18:00", "h2"⟩]⟩ : DateSnapshot).slotCount =
      (⟨"2026-10-23", 11, 1, [⟨"18:00", "h1"⟩]⟩ : DateSnapshot).slotCount ∧
    classifyDate false (some ⟨"2026-10-23", 11, 1, [⟨"18:00", "h1"⟩]⟩)
      ⟨"2026-10-23", 11, 1, [⟨"18:00", "h2"⟩]⟩ "t" = .unchanged :=
  ⟨rfl, c4_equal_count_unchanged _ _ "t" rfl⟩

/-- C5: in the Delta branch, the reported `added` list holds exactly the
slot times present in the new snapshot and absent from the previous one,
and `removed` exactly the times present before and absent now. -/
theorem c5_delta_symmetric_difference (p snap : DateSnapshot) (ts : String)
    (hnr : ¬(p.slotCount = 0 ∧ 0 < snap.slotCount))
    (hne : snap.slotCount ≠ p.slotCount) :
    classifyDate false (some p) snap ts =
      .delta (deltaAdded p snap) (deltaRemoved p snap) ∧
    (∀ t, t ∈ deltaAdded p snap ↔
      (t ∈ snap.slots.map Slot.time ∧ t ∉ p.slots.map Slot.time)) ∧
    (∀ t, t ∈ deltaRemoved p snap ↔
      (t ∈ p.slots.map Slot.time ∧ t ∉ snap.slots.map Slot.time)) := by
  refine ⟨by rw [classifyDate_some, if_neg hnr, if_pos hne], ?_, ?_⟩
  · intro t
    simp only [deltaAdded, List.mem_map, List.mem_filter, Bool.not_eq_true',
      List.contains, List.elem_eq_mem, decide_eq_false_iff_not]
    constructor
    · rintro ⟨s, ⟨hs, hc⟩, rfl⟩
      exact ⟨⟨s, hs, rfl⟩, hc⟩
    · rintro ⟨⟨s, hs, rfl⟩, hnc⟩
      exact ⟨s, ⟨hs, hnc⟩, rfl⟩
  · intro t
    simp only [deltaRemoved, List.mem_map, List.mem_filter, Bool.not_eq_true',
      List.contains, List.elem_eq_mem, decide_eq_false_iff_not]
    constructor
    · rintro ⟨s, ⟨hs, hc⟩, rfl⟩
      exact ⟨⟨s, hs, rfl⟩, hc⟩
    · rintro ⟨⟨s, hs, rfl⟩, hnc⟩
      exact ⟨s, ⟨hs, hnc⟩, rfl⟩

theorem c5_delta_symmetric_difference_witness :
    deltaAdded ⟨"2026-10-23", 11, 2, [⟨"18:00", "h1"⟩, ⟨"19:00", "h2"⟩]⟩
      ⟨"2026-10-23", 11, 3, [⟨"18:00", "h1"⟩, ⟨"19:00", "h2"⟩, ⟨"20:00", "h3"⟩]⟩
      = ["20:00"] ∧
    deltaRemoved ⟨"2026-10-23", 11, 2, [⟨"18:00", "h1"⟩, ⟨"19:00", "h2"⟩]⟩
      ⟨"2026-10-23", 11, 3, [⟨"18:00", "h1"⟩, ⟨"19:00", "h2"⟩, ⟨"20:00", "h3"⟩]⟩
      = [] ∧
    classifyDate false (some ⟨"2026-10-23", 11, 2, [⟨"18:00", "h1"⟩, ⟨"19:00", "h2"⟩]⟩)
      ⟨"2026-10-23", 11, 3, [⟨"18:00", "h1"⟩, ⟨"19:00", "h2"⟩, ⟨"20:00", "h3"⟩]⟩ "t"
      = .delta ["20:00"] [] :=
  ⟨by decide, by decide, by
    rw [(c5_delta_symmetric_difference _ _ "t" (by decide) (by decide)).1]
    decide⟩

/-- C7: for any draw of `Math.random()` in `[0, 1]`, the jittered delay at
the configured `base=60000, jitter=20000` lies in `[10000, 80000]`; in
general the result never falls below the 10-second floor and, whenever the
floor does not exceed `base + jitter`, never rises above `base + jitter`. -/
theorem c7_jitter_bounds (r : ℚ) (h0 : 0 ≤ r) (h1 : r ≤ 1) :
    (10000 ≤ jitteredDelay r ∧ jitteredDelay r ≤ 80000) ∧
    ∀ b j : ℚ, 0 ≤ j → 10000 ≤ b + j →
      10000 ≤ jitteredDelayWith b j r ∧ jitteredDelayWith b j r ≤ b + j := by
  have key : ∀ b j : ℚ, 0 ≤ j → 10000 ≤ b + j →
      10000 ≤ jitteredDelayWith b j r ∧ jitteredDelayWith b j r ≤ b + j := by
    intro b j hj hbj
    unfold jitteredDelayWith
    refine ⟨le_max_left _ _, max_le hbj ?_⟩
    have hr : (r * 2 - 1) * j ≤ j := by nlinarith
    linarith
  refine ⟨?_, key⟩
  have h2 := key 60000 20000 (by norm_num) (by norm_num)
  unfold jitteredDelay
  exact ⟨h2.1, by linarith [h2.2]⟩

theorem c7_jitter_bounds_witness :
    (0 : ℚ) ≤ 1 / 2 ∧ (1 / 2 : ℚ) ≤ 1 ∧
    10000 ≤ jitteredDelay (1 / 2) ∧ jitteredDelay (1 / 2) ≤ 80000 :=
  ⟨by norm_num, by norm_num,
    (c7_jitter_bounds (1 / 2) (by norm_num) (by norm_num)).1.1,
    (c7_jitter_bounds (1 / 2) (by norm_num) (by norm_num)).1.2⟩

theorem cyclesRun_some : ∀ (n fuel pc : Nat), 0 < n → pc ≤ n → n - pc < fuel →
    cyclesRun (some n) fuel pc = n - pc
  | _, 0, _, _, _, h2 => by omega
  | n, fuel + 1, pc, hn, h1, h2 => by
    show (if budgetExceeded (some n) (pc + 1) = true then 0
          else 1 + cyclesRun (some n) fuel (pc + 1)) = n - pc
    by_cases hpc : pc = n
    · have hbt : budgetExceeded (some n) (pc + 1) = true := by
        simp only [budgetExceeded, Bool.and_eq_true, bne_iff_ne, ne_eq,
          decide_eq_true_eq]
        omega
      rw [if_pos hbt]
      omega
    · have hbf : budgetExceeded (some n) (pc + 1) = false := by
        simp only [budgetExceeded, Bool.and_eq_false_iff, bne_eq_false_iff_eq,
          decide_eq_false_iff_not]
        omega
      rw [hbf, if_neg Bool.false_ne_true,
        cyclesRun_some n fuel (pc + 1) hn (by omega) (by omega)]
      omega

theorem cyclesRun_none : ∀ fuel pc, cyclesRun none fuel pc = fuel
  | 0, _ => rfl
  | fuel + 1, pc => by
    show (if budgetExceeded none (pc + 1) = true then 0
          else 1 + cyclesRun none fuel (pc + 1)) = fuel + 1
    rw [if_neg (by simp [budgetExceeded]), cyclesRun_none fuel (pc + 1)]
    omega

theorem cyclesRun_zero_budget : ∀ fuel pc,
    cyclesRun (some 0) fuel pc = cyclesRun none fuel pc
  | 0, _ => rfl
  | fuel + 1, pc => by
    show (if budgetExceeded (some 0) (pc + 1) = true then 0
          else 1 + cyclesRun (some 0) fuel (pc + 1))
        = (if budgetExceeded none (pc + 1) = true then 0
          else 1 + cyclesRun none fuel (pc + 1))
    rw [if_neg (by simp [budgetExceeded]), if_neg (by simp [budgetExceeded]),
      cyclesRun_zero_budget fuel (pc + 1)]

/-- C9: with a configured maximum `n > 0` and enough fuel, the loop
executes exactly `n` cycles and then stops; a configured maximum of `0` is
falsy in the budget test, so the loop behaves exactly as if no maximum were
configured, running unboundedly (one cycle per available iteration). -/
theorem c9_poll_budget (n fuel : Nat) (hn : 0 < n) (hf : n < fuel) :
    runLoopCycles (some n) fuel = n ∧
    runLoopCycles (some 0) fuel = runLoopCycles none fuel ∧
    runLoopCycles none fuel = fuel := by
  refine ⟨?_, cyclesRun_zero_budget fuel 0, cyclesRun_none fuel 0⟩
  have h := cyclesRun_some n fuel 0 hn (by omega) (by omega)
  unfold runLoopCycles
  omega

theorem c9_poll_budget_witness :
    0 < 3 ∧ 3 < 5 ∧ runLoopCycles (some 3) 5 = 3 ∧
    runLoopCycles (some 0) 5 = runLoopCycles none 5 :=
  ⟨by decide, by decide, (c9_poll_budget 3 5 (by decide) (by decide)).1,
    (c9_poll_budget 3 5 (by decide) (by decide)).2.1⟩

/-- C8: a missing dump-file configuration makes `appendDump` a no-op; a
failing sink write is caught and surfaced as a warning outcome; and the
cycle's detection results (classifications and new store) are identical
whatever the sink does. -/
theorem c8_dump_best_effort :
    (∀ w, appendDump none w = .skipped) ∧
    (∀ f e, appendDump (some f) (.error e) = .warned e) ∧
    (∀ fp store ts today ds de fetch df sw sw2,
      (runCycle fp store ts today ds de fetch df sw).classifications =
        (runCycle fp store ts today ds de fetch df sw2).classifications ∧
      (runCycle fp store ts today ds de fetch df sw).newStore =
        (runCycle fp store ts today ds de fetch df sw2).newStore) := by
  refine ⟨fun _ => rfl, fun _ _ => rfl, ?_⟩
  intro fp store ts today ds de fetch df sw sw2
  unfold runCycle
  cases h : queryAllDates today ds de fetch <;> simp

/-- C2 (amended): a thrown fetch error aborts the whole cycle — no
snapshots, no comparisons, no dumps; the error is caught at cycle level and
the store and first-poll flag are preserved (the loop survives). Only a
decodable response with missing nesting is degraded to a zero-slot
snapshot for its date. -/
theorem c2_fetch_error_aborts_cycle :
    (∀ fp store ts today ds de fetch df sw e,
      queryAllDates today ds de fetch = .error e →
      runCycle fp store ts today ds de fetch df sw =
        ⟨[], [], store, some e, fp⟩) ∧
    (∀ date d resp, resp.availabilityDays = none →
      mkSnapshot date d (extractAvailable resp) = ⟨date, d, 0, []⟩) := by
  constructor
  · intro fp store ts today ds de fetch df sw e h
    unfold runCycle
    rw [h]
  · intro date d resp h
    unfold mkSnapshot extractAvailable
    rw [h]
    rfl

theorem c2_fetch_error_aborts_cycle_witness :
    queryAllDates ⟨2026, 10, 12⟩ 11 15
        (fun d => if d = 14 then .error "network" else .ok ⟨none⟩)
      = .error "network" ∧
    runCycle false [] "t" ⟨2026, 10, 12⟩ 11 15
        (fun d => if d = 14 then .error "network" else .ok ⟨none⟩)
        none (fun _ => .ok ())
      = ⟨[], [], [], some "network", false⟩ :=
  ⟨by rfl, c2_fetch_error_aborts_cycle.1 false [] "t" ⟨2026, 10, 12⟩ 11 15
    (fun d => if d = 14 then .error "network" else .ok ⟨none⟩)
    none (fun _ => .ok ()) "network" (by rfl)⟩

/-- C2 (counterexample): with the fetch for daysOut 14 throwing and every
other date decodable, the cycle produces no per-date comparison at all —
the remaining dates are neither fetched nor compared and date 14 is not
recorded as a zero-slot observation, refuting the claimed per-date
recovery. -/
theorem c2_no_per_date_recovery_cx :
    (runCycle false [] "t" ⟨2026, 10, 12⟩ 11 15
        (fun d => if d = 14 then .error "network" else .ok ⟨none⟩)
        none (fun _ => .ok ())).classifications = [] ∧
    (runCycle false [] "t" ⟨2026, 10, 12⟩ 11 15
        (fun d => if d = 14 then .error "network" else .ok ⟨none⟩)
        none (fun _ => .ok ())).cycleError = some "network" ∧
    (horizonWindow 11 15).length = 5 :=
  ⟨by rfl, by rfl, by rfl⟩

/-- C6: for `lookaheadStart = 11`, `lookaheadEnd = 15` and any valid
reference day, the scheduler yields exactly 5 dates with `daysOut`
11 through 15, consecutive entries exactly one day apart, and the calendar
dates strictly increasing. -/
theorem c6_window_correctness (today : Civil) (h : today.valid) :
    (scheduledDates today 11 15).length = 5 ∧
    (scheduledDates today 11 15).map Prod.snd = [11, 12, 13, 14, 15] ∧
    List.Chain' (fun a b : Civil × Nat => b.1 = nextDay a.1 ∧ Civil.lt a.1 b.1)
      (scheduledDates today 11 15) ∧
    (scheduledDates today 11 15).Pairwise
      (fun a b : Civil × Nat => Civil.lt a.1 b.1) := by
  have hs : scheduledDates today 11 15 =
      [(addDays today 11, 11), (addDays today 12, 12), (addDays today 13, 13),
       (addDays today 14, 14), (addDays today 15, 15)] := rfl
  have hlt : ∀ n, Civil.lt (addDays today n) (addDays today (n + 1)) :=
    fun n => lt_nextDay _
  refine ⟨rfl, rfl, ?_, ?_⟩
  · rw [hs]
    simp only [List.chain'_cons, List.chain'_singleton, and_true]
    exact ⟨⟨rfl, hlt 11⟩, ⟨rfl, hlt 12⟩, ⟨rfl, hlt 13⟩, ⟨rfl, hlt 14⟩⟩
  · haveI : IsTrans (Civil × Nat) (fun a b : Civil × Nat => Civil.lt a.1 b.1) :=
      ⟨fun _ _ _ h1 h2 => Civil.lt_trans h1 h2⟩
    rw [← List.chain'_iff_pairwise, hs]
    simp only [List.chain'_cons, List.chain'_singleton, and_true]
    exact ⟨hlt 11, hlt 12, hlt 13, hlt 14⟩

theorem c6_window_correctness_witness :
    Civil.valid ⟨2026, 10, 12⟩ ∧
    (scheduledDates ⟨2026, 10, 12⟩ 11 15).length = 5 ∧
    (scheduledDates ⟨2026, 10, 12⟩ 11 15).map Prod.snd = [11, 12, 13, 14, 15] :=
  ⟨by decide, (c6_window_correctness ⟨2026, 10, 12⟩ (by decide)).1,
    (c6_window_correctness ⟨2026, 10, 12⟩ (by decide)).2.1⟩

theorem sortStrings_perm_eq {l1 l2 : List String} (h : l1.Perm l2) :
    sortStrings l1 = sortStrings l2 :=
  List.eq_of_perm_of_sorted
    ((List.perm_insertionSort _ l1).trans (h.trans (List.perm_insertionSort _ l2).symm))
    (List.sorted_insertionSort _ l1) (List.sorted_insertionSort _ l2)

theorem renderSnapshot_snapPerm {a b : DateSnapshot} (h : SnapPerm a b) :
    renderSnapshot a = renderSnapshot b := by
  obtain ⟨hd, _, hc, hp⟩ := h
  unfold renderSnapshot
  rw [hd, hc, sortStrings_perm_eq (hp.map Slot.hash)]

theorem orderedInsert_forall2 {R : DateSnapshot → DateSnapshot → Prop}
    (hdate : ∀ x y, R x y → x.date = y.date) :
    ∀ {a b : DateSnapshot}, R a b →
      ∀ {l1 l2 : List DateSnapshot}, List.Forall₂ R l1 l2 →
      List.Forall₂ R
        (List.orderedInsert (fun x y => strLe x.date y.date) a l1)
        (List.orderedInsert (fun x y => strLe x.date y.date) b l2) := by
  intro a b hab l1 l2 hl
  induction hl with
  | nil => exact List.Forall₂.cons hab List.Forall₂.nil
  | cons hxy hrest ih =>
    rename_i x y t1 t2
    simp only [List.orderedInsert]
    by_cases hc : strLe a.date x.date
    · rw [if_pos hc, if_pos (by rw [← hdate _ _ hab, ← hdate _ _ hxy]; exact hc)]
      exact List.Forall₂.cons hab (List.Forall₂.cons hxy hrest)
    · rw [if_neg hc, if_neg (by rw [← hdate _ _ hab, ← hdate _ _ hxy]; exact hc)]
      exact List.Forall₂.cons hxy ih

theorem sortByDate_forall2 {R : DateSnapshot → DateSnapshot → Prop}
    (hdate : ∀ x y, R x y → x.date = y.date) :
    ∀ {l1 l2 : List DateSnapshot}, List.Forall₂ R l1 l2 →
      List.Forall₂ R (sortByDate l1) (sortByDate l2) := by
  intro l1 l2 h
  induction h with
  | nil => exact List.Forall₂.nil
  | cons hxy hrest ih =>
    exact orderedInsert_forall2 hdate hxy ih

theorem map_render_forall2 {l1 l2 : List DateSnapshot}
    (h : List.Forall₂ SnapPerm l1 l2) :
    l1.map renderSnapshot = l2.map renderSnapshot := by
  induction h with
  | nil => rfl
  | cons hxy hrest ih => simp [renderSnapshot_snapPerm hxy, ih]

theorem bmf_forall2 {l1 l2 : List DateSnapshot}
    (h : List.Forall₂ SnapPerm l1 l2) :
    buildMultiDateFingerprint l1 = buildMultiDateFingerprint l2 := by
  unfold buildMultiDateFingerprint
  rw [map_render_forall2 (sortByDate_forall2 (fun _ _ hxy => hxy.1) h)]

theorem sortByDate_perm_eq {l1 l2 : List DateSnapshot}
    (hnd : (l1.map DateSnapshot.date).Nodup) (h : l1.Perm l2) :
    sortByDate l1 = sortByDate l2 := by
  haveI : IsTotal DateSnapshot (fun a b => strLe a.date b.date) :=
    ⟨fun a b => total_of strLe a.date b.date⟩
  haveI : IsTrans DateSnapshot (fun a b => strLe a.date b.date) :=
    ⟨fun _ _ _ h1 h2 => charListLe_trans _ _ _ h1 h2⟩
  haveI : IsAntisymm DateSnapshot
      (fun a b => strLe a.date b.date ∧ a.date ≠ b.date) :=
    ⟨fun a b h1 h2 =>
      absurd (IsAntisymm.antisymm (r := strLe) _ _ h1.1 h2.1) h1.2⟩
  have hpw : ∀ (l : List DateSnapshot), (l.map DateSnapshot.date).Nodup →
      (sortByDate l).Pairwise (fun a b => a.date ≠ b.date) := by
    intro l hl
    have hperm : List.Perm ((sortByDate l).map DateSnapshot.date)
        (l.map DateSnapshot.date) :=
      (List.perm_insertionSort _ l).map _
    have : ((sortByDate l).map DateSnapshot.date).Nodup := hperm.nodup_iff.mpr hl
    exact List.pairwise_map.mp this
  have hnd2 : (l2.map DateSnapshot.date).Nodup := ((h.map _).nodup_iff).mp hnd
  refine List.eq_of_perm_of_sorted
    (r := fun a b => strLe a.date b.date ∧ a.date ≠ b.date)
    ((List.perm_insertionSort _ l1).trans (h.trans (List.perm_insertionSort _ l2).symm))
    ?_ ?_
  · exact (List.sorted_insertionSort _ l1).and (hpw l1 hnd)
  · exact (List.sorted_insertionSort _ l2).and (hpw l2 hnd2)

/-- C10 (counterexample): with two snapshots sharing one date string, the
stable sort keeps input order among equal keys, so permuting the input list
changes `buildMultiDateFingerprint`, refuting the claimed invariance for
arbitrary snapshot lists. -/
theorem c10_duplicate_date_cx :
    List.Perm
      [(⟨"2026-10-23", 11, 0, []⟩ : DateSnapshot),
        ⟨"2026-10-23", 11, 1, [⟨"18:00", "h1"⟩]⟩]
      [⟨"2026-10-23", 11, 1, [⟨"18:00", "h1"⟩]⟩, ⟨"2026-10-23", 11, 0, []⟩] ∧
    buildMultiDateFingerprint
      [⟨"2026-10-23", 11, 0, []⟩, ⟨"2026-10-23", 11, 1, [⟨"18:00", "h1"⟩]⟩] ≠
    buildMultiDateFingerprint
      [⟨"2026-10-23", 11, 1, [⟨"18:00", "h1"⟩]⟩, ⟨"2026-10-23", 11, 0, []⟩] :=
  ⟨List.Perm.swap _ _ _, by decide⟩

/-- C10 (amended): for snapshot lists whose dates are pairwise distinct (as
the scheduler produces), `buildMultiDateFingerprint` is invariant under any
permutation of the list and any permutation of each snapshot's slots array:
it keys only on date, slotCount, and the sorted multiset of slot hashes. -/
theorem c10_fingerprint_invariance (l1 lmid l2 : List DateSnapshot)
    (hnd : (l1.map DateSnapshot.date).Nodup)
    (hperm : l1.Perm lmid) (hslots : List.Forall₂ SnapPerm lmid l2) :
    buildMultiDateFingerprint l1 = buildMultiDateFingerprint l2 := by
  have h1 : buildMultiDateFingerprint l1 = buildMultiDateFingerprint lmid := by
    unfold buildMultiDateFingerprint
    rw [sortByDate_perm_eq hnd hperm]
  rw [h1, bmf_forall2 hslots]

theorem c10_fingerprint_invariance_witness :
    (([(⟨"2026-10-23", 11, 2, [⟨"18:00", "h1"⟩, ⟨"19:00", "h2"⟩]⟩ : DateSnapshot),
        ⟨"2026-10-24", 12, 0, []⟩] : List DateSnapshot).map DateSnapshot.date).Nodup ∧
    buildMultiDateFingerprint
      [⟨"2026-10-23", 11, 2, [⟨"18:00", "h1"⟩, ⟨"19:00", "h2"⟩]⟩,
        ⟨"2026-10-24", 12, 0, []⟩] =
    buildMultiDateFingerprint
      [⟨"2026-10-24", 12, 0, []⟩,
        ⟨"2026-10-23", 11, 2, [⟨"19:00", "h2"⟩, ⟨"18:00", "h1"⟩]⟩] :=
  ⟨by decide,
    c10_fingerprint_invariance
      [⟨"2026-10-23", 11, 2, [⟨"18:00", "h1"⟩, ⟨"19:00", "h2"⟩]⟩,
        ⟨"2026-10-24", 12, 0, []⟩]
      [⟨"2026-10-24", 12, 0, []⟩,
        ⟨"2026-10-23", 11, 2, [⟨"18:00", "h1"⟩, ⟨"19:00", "h2"⟩]⟩]
      [⟨"2026-10-24", 12, 0, []⟩,
        ⟨"2026-10-23", 11, 2, [⟨"19:00", "h2"⟩, ⟨"18:00", "h1"⟩]⟩]
      (by decide)
      (List.Perm.swap _ _ _)
      (List.Forall₂.cons ⟨rfl, rfl, rfl, List.Perm.refl _⟩
        (List.Forall₂.cons
          ⟨rfl, rfl, rfl,
            List.Perm.swap (⟨"19:00", "h2"⟩ : Slot) (⟨"18:00", "h1"⟩ : Slot) []⟩
          List.Forall₂.nil))⟩

end TimeWatcher
